import Mathlib

/-!
# Verification of the appstream collection parser (key-mapping / DEP-11 path)

Shallow embedding of `src/collection.rs` and `src/yaml.rs`.

Conventions of the embedding:

* `yaml_rust::Yaml` values are modelled by the inductive `Yaml` below; the
  `Index<&str>` operator, `as_str`, `as_i64`, `as_bool`, `as_vec`, `as_hash`
  mirror the yaml-rust accessors (absent hash keys and indexing of
  non-mappings give `badValue`, exactly as yaml-rust returns `BAD_VALUE`).
* Rust functions returning `Result<T, ParseError>` that may additionally
  panic (`unwrap` on `Option`/`Result`, out-of-bounds indexing) are modelled
  in `RRes`, which has a dedicated `crash` outcome for panics.
* `chrono` UTC instants are modelled as `Int` epoch seconds; the calendar
  arithmetic (`days_from_civil`) and chrono's representable range are spelled
  out so that `deserialize_date` is executable.
* Modules of this repository that are not part of the given sources
  (`error.rs`, `enums.rs`, `builders.rs`, the translatable-string types) are
  modelled from the specification; each such definition carries a doc comment
  saying so.
-/

namespace Appstream

/-- Model of `yaml_rust::Yaml`. `real` carries the raw text of a float
scalar (yaml-rust keeps floats as strings); `badValue` is yaml-rust's
`Yaml::BadValue`, returned by failed index lookups. Aliases are resolved by
the loader and are not modelled. -/
inductive Yaml where
  | str (s : String)
  | int (n : Int)
  | real (s : String)
  | bool (b : Bool)
  | null
  | badValue
  | arr (xs : List Yaml)
  | hash (kvs : List (Yaml × Yaml))

/-- `Yaml::as_str`: `Some` only for string scalars. -/
def Yaml.as_str : Yaml → Option String
  | .str s => some s
  | _ => none

/-- `Yaml::as_i64`: `Some` only for integer scalars. -/
def Yaml.as_i64 : Yaml → Option Int
  | .int n => some n
  | _ => none

/-- `Yaml::as_bool`: `Some` only for boolean scalars. -/
def Yaml.as_bool : Yaml → Option Bool
  | .bool b => some b
  | _ => none

/-- `Yaml::as_vec`: `Some` only for sequences. -/
def Yaml.as_vec : Yaml → Option (List Yaml)
  | .arr xs => some xs
  | _ => none

/-- `Yaml::as_hash`: `Some` only for mappings (yaml-rust keeps insertion
order, modelled as an association list). -/
def Yaml.as_hash : Yaml → Option (List (Yaml × Yaml))
  | .hash kvs => some kvs
  | _ => none

/-- `LinkedHashMap::get` with a `Yaml::String` key, as used at every lookup
site of the source (`Index<&str>` and `get(&Yaml::from_str("ID"))`).
A stored key equals `Yaml::String(k)` iff its `as_str` is `Some k`, so the
comparison is expressed through `as_str`. -/
def hashGetStr (kvs : List (Yaml × Yaml)) (k : String) : Option Yaml :=
  (kvs.find? (fun kv => kv.1.as_str == some k)).map (fun kv => kv.2)

/-- yaml-rust's `Index<&str> for Yaml`: on a mapping, look the key up and
fall back to `BAD_VALUE`; on anything else return `BAD_VALUE`. -/
def Yaml.index (y : Yaml) (k : String) : Yaml :=
  match y with
  | .hash kvs => (hashGetStr kvs k).getD .badValue
  | _ => .badValue

/-- The parse error taxonomy.
Modelled from the spec: `error.rs` is not among the given sources; §7 of the
spec lists the variants `IoFailure`, `DecompressionFailure`, `MalformedTree`,
`MissingAttribute(name, context)`, `MissingTag(name)`, `MissingValue(field)`,
`InvalidValue(value, field, context)`, `UrlParseFailure`, and the
constructor-style helpers `missing_value`, `missing_attribute`,
`missing_tag`, `invalid_value` used by `yaml.rs` build the matching
variants. -/
inductive ParseError where
  | ioFailure
  | decompressionFailure
  | malformedTree
  | missingAttribute (name context : String)
  | missingTag (name : String)
  | missingValue (field : String)
  | invalidValue (value field context : String)
  | urlParseFailure
deriving DecidableEq, Repr

/-- Outcome of a Rust computation that returns `Result<α, ParseError>` but
may also panic: `crash` models a panic (`unwrap` on `None`/`Err`,
out-of-bounds indexing), `err` an `Err(ParseError)`, `ok` an `Ok`. -/
inductive RRes (α : Type) where
  | crash
  | err (e : ParseError)
  | ok (a : α)
deriving DecidableEq, Repr

def RRes.bind {α β : Type} : RRes α → (α → RRes β) → RRes β
  | .crash, _ => .crash
  | .err e, _ => .err e
  | .ok a, f => f a

instance : Monad RRes where
  pure := RRes.ok
  bind := RRes.bind

/-- `Option::ok_or_else(..)?`: propagate the given error on `None`. -/
def Option.okOr {α : Type} : Option α → ParseError → RRes α
  | some a, _ => .ok a
  | none, e => .err e

/-- `Option::unwrap()`: panic on `None`. -/
def Option.unwrapR {α : Type} : Option α → RRes α
  | some a => .ok a
  | none => .crash

/-- `Result::unwrap()` on a `Result<α, ε>` modelled as `Except ε α`:
panic on `Err`. -/
def Except.unwrapR {ε α : Type} : Except ε α → RRes α
  | .ok a => .ok a
  | .error _ => .crash

/-- A `for` loop that converts the elements of a list in order, aborting at
the first error or panic (the shape of every per-entry loop in `yaml.rs`). -/
def mapRR {α β : Type} (f : α → RRes β) : List α → RRes (List β)
  | [] => .ok []
  | a :: l => do
    let b ← f a
    let bs ← mapRR f l
    pure (b :: bs)

/-! ## The canonical data model (fields populated by the key-mapping path) -/

/-- `TranslatableString`: a locale-keyed map of strings.
Modelled from the spec: the translatable-string module is not among the
given sources; §3 describes it as a default value plus a mapping from locale
tag to value with last-write-wins merge, so it is modelled as an ordered
association list over locale tags. -/
structure TranslatableString where
  entries : List (String × String)
deriving DecidableEq, Repr

/-- `MarkupTranslatableString`: like `TranslatableString`, values may carry
markup. Modelled from the spec (see `TranslatableString`). -/
structure MarkupTranslatableString where
  entries : List (String × String)
deriving DecidableEq, Repr

/-- `TranslatableList`: a locale-keyed map of word lists.
Modelled from the spec (see `TranslatableString`). -/
structure TranslatableList where
  entries : List (String × List String)
deriving DecidableEq, Repr

/-- Last-write-wins insertion into a locale map (spec §3: "keys unique; last
write for a given locale wins"). -/
def insertLocale {α : Type} (m : List (String × α)) (k : String) (v : α) :
    List (String × α) :=
  if m.any (fun p => p.1 == k) then
    m.map (fun p => if p.1 == k then (k, v) else p)
  else
    m ++ [(k, v)]

/-- `TranslatableString::add_for_yaml_element`.
Modelled from the spec: merges each `(locale, value)` pair of a key-mapping
node into the locale map, last write wins; non-mapping nodes and non-string
entries contribute nothing. -/
def TranslatableString.add_for_yaml_element (t : TranslatableString)
    (v : Yaml) : TranslatableString :=
  match v with
  | .hash kvs =>
    ⟨kvs.foldl (fun m kv =>
        match kv.1.as_str, kv.2.as_str with
        | some locale, some s => insertLocale m locale s
        | _, _ => m) t.entries⟩
  | _ => t

/-- `MarkupTranslatableString::add_for_yaml_element`.
Modelled from the spec (see `TranslatableString.add_for_yaml_element`). -/
def MarkupTranslatableString.add_for_yaml_element
    (t : MarkupTranslatableString) (v : Yaml) : MarkupTranslatableString :=
  match v with
  | .hash kvs =>
    ⟨kvs.foldl (fun m kv =>
        match kv.1.as_str, kv.2.as_str with
        | some locale, some s => insertLocale m locale s
        | _, _ => m) t.entries⟩
  | _ => t

/-- `TranslatableList::add_for_yaml_element`.
Modelled from the spec: each locale maps to the list of string items of the
corresponding sequence. -/
def TranslatableList.add_for_yaml_element (t : TranslatableList)
    (v : Yaml) : TranslatableList :=
  match v with
  | .hash kvs =>
    ⟨kvs.foldl (fun m kv =>
        match kv.1.as_str, kv.2.as_vec with
        | some locale, some items =>
          insertLocale m locale (items.filterMap Yaml.as_str)
        | _, _ => m) t.entries⟩
  | _ => t

def TranslatableString.default : TranslatableString := ⟨[]⟩
def MarkupTranslatableString.default : MarkupTranslatableString := ⟨[]⟩
def TranslatableList.default : TranslatableList := ⟨[]⟩

/-- `ComponentKind` (enums.rs).
Modelled from the spec: closed enum over the component types; the
key-mapping mapper rejects unrecognized tokens, so `from_str` is partial
over the token set (returns `none` on unknown tokens, which `yaml.rs` turns
into `InvalidValue`). -/
inductive ComponentKind where
  | generic
  | desktopApplication
  | consoleApplication
  | webApplication
  | addon
  | font
  | codec
  | inputMethod
  | firmware
  | driver
  | localization
  | runtime
  | iconTheme
  | operatingSystem
deriving DecidableEq, Repr

/-- `ComponentKind::from_str`. Modelled from the spec (see `ComponentKind`). -/
def ComponentKind.from_str : String → Option ComponentKind
  | "generic" => some .generic
  | "desktop-application" => some .desktopApplication
  | "desktop" => some .desktopApplication
  | "console-application" => some .consoleApplication
  | "web-application" => some .webApplication
  | "addon" => some .addon
  | "font" => some .font
  | "codec" => some .codec
  | "inputmethod" => some .inputMethod
  | "firmware" => some .firmware
  | "driver" => some .driver
  | "localization" => some .localization
  | "runtime" => some .runtime
  | "icon-theme" => some .iconTheme
  | "operating-system" => some .operatingSystem
  | _ => none

/-- `Category` (enums.rs).
Modelled from the spec: a closed enum of known category tokens plus an
`Unknown(String)` escape variant. Only the members exercised by the
repository's tests are named; every other token is carried by `unknown`,
which is all the claims depend on. -/
inductive Category where
  | system
  | education
  | literature
  | unknown (token : String)
deriving DecidableEq, Repr

/-- The tokens `Category::from_str` recognizes as closed-enum members in
this model (see `Category`). -/
def knownCategoryTokens : List String := ["System", "Education", "Literature"]

/-- `Category::from_str`.
Modelled from the spec: "A category token not in the closed enum parses
successfully as `Category::Unknown(token)`" — the conversion is total, so
its `Result` is always `Ok` and the `map_err` at the call site in `yaml.rs`
is unreachable. -/
def Category.from_str (s : String) : Except Unit Category :=
  Except.ok <|
    if s = "System" then .system
    else if s = "Education" then .education
    else if s = "Literature" then .literature
    else .unknown s

/-- `ReleaseKind` (enums.rs). Modelled from the spec (§3: Stable /
Development). Unrecognized tokens are rejected by the mapper. -/
inductive ReleaseKind where
  | stable
  | development
deriving DecidableEq, Repr

/-- `ReleaseKind::from_str`. Modelled from the spec (see `ReleaseKind`). -/
def ReleaseKind.from_str : String → Option ReleaseKind
  | "stable" => some .stable
  | "development" => some .development
  | _ => none

/-- `Icon` (enums.rs). Modelled from the spec (§3): variant over stock /
cached / local / remote with optional pixel dimensions; remote icons carry
an absolute URL (URLs are modelled as their text, see `Url.parse`). -/
inductive Icon where
  | stock (name : String)
  | cached (path : String) (width height : Option Nat)
  | local (path : String) (width height : Option Nat)
  | remote (url : String) (width height : Option Nat)
deriving DecidableEq, Repr

/-- `ImageKind` (enums.rs). Modelled from the spec (§3). -/
inductive ImageKind where
  | source
  | thumbnail
deriving DecidableEq, Repr

/-- `Image` (§3): url, kind, optional dimensions. -/
structure Image where
  url : String
  kind : ImageKind
  width : Option Nat
  height : Option Nat
deriving DecidableEq, Repr

/-- `Screenshot` (§3). -/
structure Screenshot where
  is_default : Bool
  caption : TranslatableString
  images : List Image
deriving DecidableEq, Repr

/-- `Release` (§3); the date is an epoch-second instant. -/
structure Release where
  version : String
  kind : Option ReleaseKind
  date : Option Int
deriving DecidableEq, Repr

/-- `Component`: the fields populated by the key-mapping mapper
(collection.rs / yaml.rs). `id` models `AppId`, which wraps a string with
value equality. -/
structure Component where
  id : String
  kind : ComponentKind
  origin : Option String
  name : TranslatableString
  summary : TranslatableString
  developer_name : TranslatableString
  description : MarkupTranslatableString
  keywords : TranslatableList
  project_license : Option String
  project_group : Option String
  compulsory_for_desktop : List String
  pkgname : Option String
  source_pkgname : Option String
  categories : List Category
  icons : List Icon
  screenshots : List Screenshot
  releases : List Release
  extends_ : List String
deriving DecidableEq, Repr

/-- `Collection` (collection.rs lines 23-43). -/
structure Collection where
  version : String
  origin : Option String
  media_base_url : Option String
  components : List Component
  architecture : Option String
deriving DecidableEq, Repr

/-- `ComponentBuilder::default()` finalized with no setter applied.
Modelled from the spec (§4.5): builders accumulate optional fields and
finalize into the immutable value; the builder state is modelled as the
partially-filled record itself (finalize is the identity), with `generic`
as the default kind. -/
def ComponentBuilder.default : Component :=
  { id := ""
    kind := .generic
    origin := none
    name := TranslatableString.default
    summary := TranslatableString.default
    developer_name := TranslatableString.default
    description := MarkupTranslatableString.default
    keywords := TranslatableList.default
    project_license := none
    project_group := none
    compulsory_for_desktop := []
    pkgname := none
    source_pkgname := none
    categories := []
    icons := []
    screenshots := []
    releases := []
    extends_ := [] }

/-- `ScreenshotBuilder::default()`: a screenshot is default unless stated
otherwise. Modelled from the spec (§4.5 and the repository tests, where a
builder without `set_default` equals a `default: true` screenshot). -/
def ScreenshotBuilder.default : Screenshot :=
  { is_default := true, caption := TranslatableString.default, images := [] }

/-- Whether the second character list is a leading segment of the first. -/
def charsLead : List Char → List Char → Bool
  | _, [] => true
  | [], _ :: _ => false
  | c :: cs, d :: ds => c == d && charsLead cs ds

/-- `Url::parse`, used by the mapper only to validate an already-resolved
absolute URL. Modelled from the spec (§6): the URL parser is an external
collaborator "used only for validating already-resolved absolute URLs (not
for joining relative paths)", so success returns the text unchanged and
failure is the `UrlParseFailure` conversion of `url::ParseError` applied by
`?` in `yaml.rs`. -/
def Url.parse (s : String) : RRes String :=
  if charsLead s.toList "http://".toList
      || charsLead s.toList "https://".toList then .ok s
  else .err .urlParseFailure

/-! ## Date parsing (`deserialize_date`, yaml.rs lines 23-31)

`chrono` is the external UTC date/time collaborator; a `DateTime<Utc>` is
modelled as its epoch-second timestamp. The proleptic-Gregorian day count
(`days_from_civil`) and chrono's representable year range (−262144 to
262143) make both format branches executable. -/

/-- Day count since 1970-01-01 of a proleptic-Gregorian civil date
(year / month / day), months and days 1-based. -/
def days_from_civil (year : Int) (m d : Nat) : Int :=
  let y : Int := year - (if m ≤ 2 then 1 else 0)
  let era : Int := Int.fdiv y 400
  let yoe : Nat := (y - era * 400).toNat
  let mp : Nat := if m > 2 then m - 3 else m + 9
  let doy : Nat := (153 * mp + 2) / 5 + d - 1
  let doe : Nat := yoe * 365 + yoe / 4 - yoe / 100 + doy
  era * 146097 + (doe : Int) - 719468

/-- Smallest epoch second chrono can represent (year −262144). -/
def chronoMinTimestamp : Int := days_from_civil (-262144) 1 1 * 86400

/-- Largest epoch second chrono can represent (end of year 262143). -/
def chronoMaxTimestamp : Int := days_from_civil 262143 12 31 * 86400 + 86399

/-- Whether an epoch second lies in chrono's representable range; outside
it, `Utc.datetime_from_str(_, "%s")` fails. -/
def chronoInRange (t : Int) : Bool :=
  chronoMinTimestamp ≤ t && t ≤ chronoMaxTimestamp

/-- Value of a non-empty all-digit string, `none` otherwise. -/
def digitsVal (cs : List Char) : Option Nat :=
  if cs.isEmpty then none
  else
    cs.foldl (fun acc c =>
      match acc with
      | none => none
      | some n => if c.isDigit then some (n * 10 + (c.toNat - 48)) else none)
      (some 0)

/-- chrono `"%s"` parsing: an optionally negated decimal second count,
valid only within chrono's range. -/
def parseEpoch (s : String) : Option Int :=
  let cs := s.toList
  let signed : Option Int :=
    match cs with
    | '-' :: rest => (digitsVal rest).map (fun n => -(n : Int))
    | _ => (digitsVal cs).map (fun n => (n : Int))
  match signed with
  | some t => if chronoInRange t then some t else none
  | none => none

/-- Gregorian leap-year test. -/
def isLeapYear (y : Nat) : Bool :=
  (y % 4 == 0 && y % 100 != 0) || y % 400 == 0

/-- Number of days of a month. -/
def daysInMonth (y m : Nat) : Nat :=
  if m == 2 then (if isLeapYear y then 29 else 28)
  else if m == 4 || m == 6 || m == 9 || m == 11 then 30
  else 31

/-- Split a character list at every dash. -/
def splitDash : List Char → List (List Char)
  | [] => [[]]
  | c :: rest =>
    let r := splitDash rest
    if c = '-' then [] :: r
    else
      match r with
      | [] => [[c]]
      | h :: t => (c :: h) :: t

/-- chrono `NaiveDate::parse_from_str(_, "%Y-%m-%d")` followed by
`.and_hms(0, 0, 0)`: three dash-separated decimal components forming a
valid calendar date within chrono's year range, taken at midnight UTC and
returned as epoch seconds. -/
def parseYmd (s : String) : Option Int :=
  match splitDash s.toList with
  | [ys, ms, ds] =>
    match digitsVal ys, digitsVal ms, digitsVal ds with
    | some y, some m, some d =>
      if ms.length ≤ 2 && ds.length ≤ 2 && y ≤ 262143 &&
          1 ≤ m && m ≤ 12 && 1 ≤ d && d ≤ daysInMonth y m then
        some (days_from_civil (y : Int) m d * 86400)
      else none
    | _, _, _ => none
  | _ => none

/-- `deserialize_date` (yaml.rs lines 23-31): first attempt `"%s"`
epoch-second parsing, then fall back to `"%Y-%m-%d"` at midnight UTC;
`none` models `chrono::ParseError`. -/
def deserialize_date (date : String) : Option Int :=
  match parseEpoch date with
  | some t => some t
  | none => parseYmd date

/-! ## The key-mapping mapper (`yaml.rs`)

The nested loops of `TryFrom<(&str, &str, &Yaml)> for Component` are split
into one named function per entry form, each mirroring its loop body
statement by statement; the loop bodies pushed values onto the builder one
at a time, which is rendered as collecting the pushed values in order and
appending them to the accumulating component. -/

/-- One entry of a `cached` icon list (yaml.rs lines 133-153): mandatory
`name`, lenient `width`/`height` (`as_i64` then `u32::try_from(..).ok()`,
so absent, non-integer or out-of-`u32`-range values become `None`). -/
def cached_icon_entry (icon : Yaml) : RRes Icon := do
  let name ← Option.okOr (icon.index "name").as_str (.missingValue "icon_name")
  let width : Option Nat :=
    match (icon.index "width").as_i64 with
    | some w => if 0 ≤ w && w < 4294967296 then some w.toNat else none
    | none => none
  let height : Option Nat :=
    match (icon.index "height").as_i64 with
    | some w => if 0 ≤ w && w < 4294967296 then some w.toNat else none
    | none => none
  pure (.cached name width height)

/-- One entry of a non-`stock`/`cached`/`remote` icon list (yaml.rs lines
179-199): same fields as `cached`, building `Icon::Local`. -/
def local_icon_entry (icon : Yaml) : RRes Icon := do
  let name ← Option.okOr (icon.index "name").as_str (.missingValue "icon_name")
  let width : Option Nat :=
    match (icon.index "width").as_i64 with
    | some w => if 0 ≤ w && w < 4294967296 then some w.toNat else none
    | none => none
  let height : Option Nat :=
    match (icon.index "height").as_i64 with
    | some w => if 0 ≤ w && w < 4294967296 then some w.toNat else none
    | none => none
  pure (.local name width height)

/-- One entry of a `remote` icon list (yaml.rs lines 156-176): mandatory
relative `url`, lenient dimensions, absolute URL formed by
`format!("{}{}", baseurl, path)` and validated by `Url::parse`. -/
def remote_icon_entry (baseurl : String) (icon : Yaml) : RRes Icon := do
  let path ← Option.okOr (icon.index "url").as_str (.missingValue "icon_name")
  let width : Option Nat :=
    match (icon.index "width").as_i64 with
    | some w => if 0 ≤ w && w < 4294967296 then some w.toNat else none
    | none => none
  let height : Option Nat :=
    match (icon.index "height").as_i64 with
    | some w => if 0 ≤ w && w < 4294967296 then some w.toNat else none
    | none => none
  let url := baseurl ++ path
  let u ← Url.parse url
  pure (.remote u width height)

/-- The `Icon` arm (yaml.rs lines 122-203): iterate the icon mapping; the
`stock` value is a mandatory string, the other kinds are lists whose
entries are converted in order (`.unwrap()` on a non-list value panics). -/
def icon_arm (baseurl : String) (v : Yaml) : RRes (List Icon) := do
  let kvs ← Option.unwrapR v.as_hash
  kvs.foldlM (fun acc xy => do
    let kind ← Option.unwrapR xy.1.as_str
    match kind with
    | "stock" => do
      let name ← Option.okOr xy.2.as_str (.missingValue "stock_icon")
      pure (acc ++ [Icon.stock name])
    | "cached" => do
      let icons ← Option.unwrapR xy.2.as_vec
      let new ← mapRR cached_icon_entry icons
      pure (acc ++ new)
    | "remote" => do
      let icons ← Option.unwrapR xy.2.as_vec
      let new ← mapRR (remote_icon_entry baseurl) icons
      pure (acc ++ new)
    | _ => do
      let icons ← Option.unwrapR xy.2.as_vec
      let new ← mapRR local_icon_entry icons
      pure (acc ++ new)) []

/-- One `thumbnails` entry (yaml.rs lines 255-277): mandatory relative
`url`, dimensions computed leniently as `Option<u32>` but then forced with
`width.unwrap()` / `height.unwrap()` after the URL is parsed — an absent or
non-`u32` dimension panics. -/
def thumbnail_entry (baseurl : String) (t : Yaml) : RRes Image := do
  let path ← Option.okOr (t.index "url").as_str (.missingValue "icon_name")
  let width : Option Nat :=
    match (t.index "width").as_i64 with
    | some w => if 0 ≤ w && w < 4294967296 then some w.toNat else none
    | none => none
  let height : Option Nat :=
    match (t.index "height").as_i64 with
    | some w => if 0 ≤ w && w < 4294967296 then some w.toNat else none
    | none => none
  let url := baseurl ++ path
  let u ← Url.parse url
  let w ← Option.unwrapR width
  let h ← Option.unwrapR height
  pure { url := u, kind := .thumbnail, width := some w, height := some h }

/-- The `source-image` entry (yaml.rs lines 279-300): identical to a
thumbnail but on the value itself and with kind `Source`. -/
def source_image_entry (baseurl : String) (y : Yaml) : RRes Image := do
  let path ← Option.okOr (y.index "url").as_str (.missingValue "icon_name")
  let width : Option Nat :=
    match (y.index "width").as_i64 with
    | some w => if 0 ≤ w && w < 4294967296 then some w.toNat else none
    | none => none
  let height : Option Nat :=
    match (y.index "height").as_i64 with
    | some w => if 0 ≤ w && w < 4294967296 then some w.toNat else none
    | none => none
  let url := baseurl ++ path
  let u ← Url.parse url
  let w ← Option.unwrapR width
  let h ← Option.unwrapR height
  pure { url := u, kind := .source, width := some w, height := some h }

/-- One `Screenshots` entry (yaml.rs lines 242-306): a fresh builder with
`set_default(false)`, then the child mapping is folded in order (`default`
via `as_bool().unwrap_or(false)`, `caption` merged into a local
translatable string that is attached after the loop, `thumbnails` and
`source-image` appended as images, other keys skipped). -/
def screenshot_entry (baseurl : String) (child : Yaml) : RRes Screenshot := do
  let s0 : Screenshot := { ScreenshotBuilder.default with is_default := false }
  let kvs ← Option.unwrapR child.as_hash
  let st ← kvs.foldlM
    (fun (st : Screenshot × TranslatableString) xy => do
      let kind ← Option.unwrapR xy.1.as_str
      match kind with
      | "default" =>
        pure ({ st.1 with is_default := xy.2.as_bool.getD false }, st.2)
      | "caption" =>
        pure (st.1, st.2.add_for_yaml_element xy.2)
      | "thumbnails" => do
        let ts ← Option.unwrapR xy.2.as_vec
        let imgs ← mapRR (thumbnail_entry baseurl) ts
        pure ({ st.1 with images := st.1.images ++ imgs }, st.2)
      | "source-image" => do
        let img ← source_image_entry baseurl xy.2
        pure ({ st.1 with images := st.1.images ++ [img] }, st.2)
      | _ => pure st)
    (s0, TranslatableString.default)
  pure { st.1 with caption := st.2 }

/-- One `Releases` entry (yaml.rs lines 310-341): mandatory `version`; the
`date` and `unix-timestamp` keys are read with `as_i64()` (so only integer
scalars are seen), stringified, and fed to `deserialize_date`, a failure
becoming `InvalidValue(value, "date", "release")`; `type` selects the
release kind, unrecognized tokens being `InvalidValue(value, "type",
"release")`. -/
def release_entry (x : Yaml) : RRes Release := do
  let version ← Option.okOr (x.index "version").as_str (.missingValue "version")
  let r0 : Release := { version := version, kind := none, date := none }
  let r1 ← match (x.index "date").as_i64 with
    | some d =>
      match deserialize_date (toString d) with
      | some t => pure { r0 with date := some t }
      | none => RRes.err (.invalidValue (toString d) "date" "release")
    | none => pure r0
  let r2 ← match (x.index "unix-timestamp").as_i64 with
    | some d =>
      match deserialize_date (toString d) with
      | some t => pure { r1 with date := some t }
      | none => RRes.err (.invalidValue (toString d) "date" "release")
    | none => pure r1
  let r3 ← match (x.index "type").as_str with
    | some kind =>
      match ReleaseKind.from_str kind with
      | some k => pure { r2 with kind := some k }
      | none => RRes.err (.invalidValue kind "type" "release")
    | none => pure r2
  pure r3

/-- One `Categories` entry (yaml.rs lines 223-232): a mandatory string
token passed to `Category::from_str`, whose error (never produced, see
`Category.from_str`) would become `InvalidValue(token, "$value",
"category")`. -/
def category_entry (x : Yaml) : RRes Category := do
  let token ← Option.okOr x.as_str (.missingValue "category")
  match Category.from_str token with
  | .ok c => pure c
  | .error _ => RRes.err (.invalidValue token "$value" "category")

/-- One `Extends` entry (yaml.rs lines 344-346): `AppId::try_from`, a
mandatory string. -/
def extends_entry (x : Yaml) : RRes String :=
  Option.okOr x.as_str (.missingValue "id")

/-- Accumulator of the per-component loop: the builder plus the local
translatable accumulators declared before the loop (yaml.rs lines
108-112). -/
structure LoopState where
  comp : Component
  name : TranslatableString
  summary : TranslatableString
  developer_name : TranslatableString
  keywords : TranslatableList
  description : MarkupTranslatableString

/-- One iteration of the per-component key loop (yaml.rs lines 113-418):
the key itself is forced with `as_str().unwrap()`, then dispatched;
unrecognized keys are skipped. -/
def process_kv (baseurl : String) (st : LoopState) (kv : Yaml × Yaml) :
    RRes LoopState := do
  let key ← Option.unwrapR kv.1.as_str
  let v := kv.2
  match key with
  | "Name" => pure { st with name := st.name.add_for_yaml_element v }
  | "Summary" => pure { st with summary := st.summary.add_for_yaml_element v }
  | "DeveloperName" =>
    pure { st with developer_name := st.developer_name.add_for_yaml_element v }
  | "Description" =>
    pure { st with description := st.description.add_for_yaml_element v }
  | "ProjectLicense" => do
    let l ← Option.okOr v.as_str (.missingValue "license")
    pure { st with comp := { st.comp with project_license := some l } }
  | "Icon" => do
    let icons ← icon_arm baseurl v
    pure { st with comp := { st.comp with icons := st.comp.icons ++ icons } }
  | "ProjectGroup" => do
    let g ← Option.okOr v.as_str (.missingValue "project_group")
    pure { st with comp := { st.comp with project_group := some g } }
  | "CompulsoryForDesktop" => do
    let c ← Option.okOr v.as_str (.missingValue "compulsory_for_desktop")
    pure { st with comp :=
      { st.comp with
        compulsory_for_desktop := st.comp.compulsory_for_desktop ++ [c] } }
  | "Package" => do
    let p ← Option.okOr v.as_str (.missingValue "pkgname")
    pure { st with comp := { st.comp with pkgname := some p } }
  | "Categories" => do
    let xs ← Option.unwrapR v.as_vec
    let cats ← mapRR category_entry xs
    pure { st with comp :=
      { st.comp with categories := st.comp.categories ++ cats } }
  | "SourcePackage" => do
    let p ← Option.okOr v.as_str (.missingValue "source_pkgname")
    pure { st with comp := { st.comp with source_pkgname := some p } }
  | "Keywords" =>
    pure { st with keywords := st.keywords.add_for_yaml_element v }
  | "Screenshots" => do
    let xs ← Option.unwrapR v.as_vec
    let shots ← mapRR (screenshot_entry baseurl) xs
    pure { st with comp :=
      { st.comp with screenshots := st.comp.screenshots ++ shots } }
  | "Releases" => do
    let xs ← Option.unwrapR v.as_vec
    let rels ← mapRR release_entry xs
    pure { st with comp :=
      { st.comp with releases := st.comp.releases ++ rels } }
  | "Extends" => do
    let xs ← Option.unwrapR v.as_vec
    let ids ← mapRR extends_entry xs
    pure { st with comp :=
      { st.comp with extends_ := st.comp.extends_ ++ ids } }
  | _ => pure st

/-- `TryFrom<(&str, &str, &Yaml)> for Component` (yaml.rs lines 85-428):
set the propagated origin, read the optional `Type` (rejecting unknown
kinds), force the mapping shape and the mandatory `ID`, fold the key loop,
and finally attach the accumulated translatables and the id. -/
def Component.try_from (origin baseurl : String) (e : Yaml) :
    RRes Component := do
  let c0 : Component := { ComponentBuilder.default with origin := some origin }
  let c1 ← match (e.index "Type").as_str with
    | some kind =>
      match ComponentKind.from_str kind with
      | some k => pure { c0 with kind := k }
      | none => RRes.err (.invalidValue kind "type" "component")
    | none => pure c0
  let kvs ← Option.unwrapR e.as_hash
  let idNode ← Option.okOr (hashGetStr kvs "ID") (.missingTag "id")
  let app_id ← Option.okOr idNode.as_str (.missingValue "id")
  let st ← kvs.foldlM (process_kv baseurl)
    { comp := c1
      name := TranslatableString.default
      summary := TranslatableString.default
      developer_name := TranslatableString.default
      keywords := TranslatableList.default
      description := MarkupTranslatableString.default }
  pure { st.comp with
    name := st.name
    summary := st.summary
    keywords := st.keywords
    description := st.description
    developer_name := st.developer_name
    id := app_id }

/-- `TryFrom<&Vec<Yaml>> for Collection` (yaml.rs lines 43-83): `&e[0]`
panics on an empty document sequence; the header must carry a string
`Version`; `Architecture` is optional; `Origin` and `MediaBaseUrl` are
stored on the collection only when present and non-empty but are then
*required* (`ok_or_else(missing_value)`) in order to be passed to every
component conversion. -/
def Collection.try_from (docs : List Yaml) : RRes Collection := do
  match docs with
  | [] => RRes.crash
  | header :: rest => do
    let version ← Option.okOr (header.index "Version").as_str
      (.missingAttribute "version" "collection")
    let architecture := (header.index "Architecture").as_str
    let originField : Option String :=
      match (header.index "Origin").as_str with
      | some o => if o ≠ "" then some o else none
      | none => none
    let origin ← Option.okOr (header.index "Origin").as_str
      (.missingValue "Origin")
    let mediaField : Option String :=
      match (header.index "MediaBaseUrl").as_str with
      | some m => if m ≠ "" then some m else none
      | none => none
    let media_base_url ← Option.okOr (header.index "MediaBaseUrl").as_str
      (.missingValue "MediaBaseUrl")
    let components ← mapRR (Component.try_from origin media_base_url) rest
    pure { version := version
           origin := originField
           media_base_url := mediaField
           components := components
           architecture := architecture }

/-! ## Loader entry points (`collection.rs`)

The YAML tokenizer, the markup parser and the gzip decompressor are
external collaborators consumed through their outputs, so the entry points
are parametrized by those outputs: `load` stands for
`YamlLoader::load_from_str` (its error type collapsed to `Unit`), and a
gzip source is either well-formed with a decoded payload or corrupt. -/

/-- The decoded-byte output of the gzip collaborator for one input:
either the fully decompressed payload, or a corrupt/truncated stream whose
decompression fails. -/
inductive GzInput where
  | corrupt
  | payload (s : String)

/-- `Collection::from_yaml_path` (collection.rs lines 62-67), from the file
contents on: `YamlLoader::load_from_str(..).unwrap()` — a tokenizer error
panics — then `Collection::try_from`. -/
def from_yaml_path (load : String → Except Unit (List Yaml))
    (contents : String) : RRes Collection :=
  match load contents with
  | .error _ => .crash
  | .ok docs => Collection.try_from docs

/-- `Collection::from_yaml_gzipped` (collection.rs lines 91-101):
`read_to_string` drains the decoder before any parsing, a corrupt stream
failing there; the error conversion is modelled from the spec (§4.1/§7:
corrupt or truncated gzip streams yield `DecompressionFailure`). The
decoded payload then goes through the same `.unwrap()`-plus-`try_from`
pipeline as `from_yaml_path`. -/
def from_yaml_gzipped (load : String → Except Unit (List Yaml))
    (g : GzInput) : RRes Collection :=
  match g with
  | .corrupt => .err .decompressionFailure
  | .payload s => from_yaml_path load s

/-- `Collection::from_gzipped` (collection.rs lines 75-83): the decoder is
handed directly to `Element::parse`, so there is no decompression step
preceding the markup parse; a decompression failure can only surface inside
`Element::parse`, whose `xmltree::ParseError` the `?` converts — modelled
from the spec (§4.1: `MalformedTree` is the variant for markup-parser
failures, and no `io::Error` conversion is reachable from this call). The
markup mapper itself is outside the key-mapping scope and is abstracted as
the continuation `parse_markup`. -/
def from_gzipped (parse_markup : String → RRes Collection)
    (g : GzInput) : RRes Collection :=
  match g with
  | .corrupt => .err .malformedTree
  | .payload s => parse_markup s

/-- `Collection::from_gzipped_bytes` (collection.rs lines 109-115):
structurally identical to `from_gzipped`, reading from a byte slice. -/
def from_gzipped_bytes (parse_markup : String → RRes Collection)
    (g : GzInput) : RRes Collection :=
  match g with
  | .corrupt => .err .malformedTree
  | .payload s => parse_markup s

/-- `Collection::find_by_id` (collection.rs lines 118-128): keep, in
collection order, the components whose id equals the query or the query
with a literal `.desktop` appended. -/
def Collection.find_by_id (c : Collection) (id : String) : List Component :=
  let alternative_id := id ++ ".desktop"
  c.components.filter (fun comp => comp.id == id || comp.id == alternative_id)

/-! ## Concrete fixtures used by the theorems -/

/-- A header document carrying `Version`, `Origin` and `MediaBaseUrl`. -/
def sample_header : Yaml :=
  .hash [(.str "Version", .str "0.8"),
         (.str "Origin", .str "chromodoris-main"),
         (.str "MediaBaseUrl", .str "https://m.org/media/")]

/-- A minimal component document (only the mandatory `ID`). -/
def sample_component_doc : Yaml := .hash [(.str "ID", .str "x.app")]

/-- The component `sample_component_doc` maps to under `sample_header`. -/
def sample_component : Component :=
  { ComponentBuilder.default with
      id := "x.app", origin := some "chromodoris-main" }

/-- The collection `[sample_header, sample_component_doc]` maps to. -/
def sample_collection : Collection :=
  { version := "0.8"
    origin := some "chromodoris-main"
    media_base_url := some "https://m.org/media/"
    components := [sample_component]
    architecture := none }

/-- A component with the plain Firefox id. -/
def firefox_component : Component :=
  { ComponentBuilder.default with id := "org.mozilla.Firefox" }

/-- A component with the legacy `.desktop`-suffixed Firefox id. -/
def firefox_desktop_component : Component :=
  { ComponentBuilder.default with id := "org.mozilla.Firefox.desktop" }

/-- A collection containing only the plain Firefox id. -/
def firefox_collection : Collection :=
  { version := "0.10", origin := none, media_base_url := none,
    components := [firefox_component], architecture := none }

/-- A collection containing the plain and the `.desktop`-suffixed id. -/
def firefox_collection_two : Collection :=
  { version := "0.10", origin := none, media_base_url := none,
    components := [firefox_component, firefox_desktop_component],
    architecture := none }

/-! ## Infrastructure lemmas -/

@[simp]
theorem RRes.pure_eq {α : Type} (a : α) : (pure a : RRes α) = RRes.ok a := rfl

@[simp]
theorem RRes.bind_ok {α β : Type} (a : α) (f : α → RRes β) :
    (RRes.ok a >>= f) = f a := rfl

@[simp]
theorem RRes.bind_err {α β : Type} (e : ParseError) (f : α → RRes β) :
    (RRes.err e >>= f) = RRes.err e := rfl

@[simp]
theorem RRes.bind_crash {α β : Type} (f : α → RRes β) :
    (RRes.crash >>= f) = (RRes.crash : RRes β) := rfl

theorem RRes.bind_eq_ok {α β : Type} {x : RRes α} {f : α → RRes β} {b : β} :
    (x >>= f) = RRes.ok b ↔ ∃ a, x = RRes.ok a ∧ f a = RRes.ok b := by
  cases x <;> simp [Bind.bind, RRes.bind]

theorem okOr_eq_ok {α : Type} {o : Option α} {e : ParseError} {a : α} :
    Option.okOr o e = RRes.ok a ↔ o = some a := by
  cases o <;> simp [Option.okOr]

theorem unwrapR_eq_ok {α : Type} {o : Option α} {a : α} :
    Option.unwrapR o = RRes.ok a ↔ o = some a := by
  cases o <;> simp [Option.unwrapR]

theorem Url.parse_eq_ok {s u : String} : Url.parse s = RRes.ok u → u = s := by
  unfold Url.parse
  split
  · intro h
    cases h
    rfl
  · intro h
    cases h

theorem mapRR_ok_mem {α β : Type} {f : α → RRes β} :
    ∀ {l : List α} {l₂ : List β}, mapRR f l = RRes.ok l₂ →
      ∀ b ∈ l₂, ∃ a ∈ l, f a = RRes.ok b := by
  intro l
  induction l with
  | nil =>
    intro l₂ h b hb
    simp only [mapRR] at h
    cases h
    cases hb
  | cons x xs ih =>
    intro l₂ h b hb
    simp only [mapRR] at h
    rw [RRes.bind_eq_ok] at h
    obtain ⟨y, hy, h⟩ := h
    rw [RRes.bind_eq_ok] at h
    obtain ⟨ys, hys, h⟩ := h
    simp only [RRes.pure_eq, RRes.ok.injEq] at h
    subst h
    rcases List.mem_cons.1 hb with hb | hb
    · exact ⟨x, List.mem_cons_self x xs, hb ▸ hy⟩
    · obtain ⟨a, ha, hfa⟩ := ih hys b hb
      exact ⟨a, List.mem_cons_of_mem x ha, hfa⟩

theorem foldlM_preserve {σ α : Type} {f : σ → α → RRes σ} {P : σ → Prop}
    (hf : ∀ s a s₂, f s a = RRes.ok s₂ → P s → P s₂) :
    ∀ {l : List α} {s s₂ : σ}, List.foldlM f s l = RRes.ok s₂ → P s → P s₂ := by
  intro l
  induction l with
  | nil =>
    intro s s₂ h hP
    simp only [List.foldlM, RRes.pure_eq, RRes.ok.injEq] at h
    exact h ▸ hP
  | cons x xs ih =>
    intro s s₂ h hP
    simp only [List.foldlM] at h
    rw [RRes.bind_eq_ok] at h
    obtain ⟨s₁, hs₁, h⟩ := h
    exact ih h (hf s x s₁ hs₁ hP)

/-! ## Claim theorems -/

/-- C1, counterexample: parsing a key-mapping stream whose header carries
only the mandatory `Version` does not succeed — `yaml.rs` lines 64-66
require `Origin` and the conversion returns `MissingValue("Origin")`, so no
Collection with `origin == None` is produced. -/
theorem c1_claim_counterexample :
    Collection.try_from [Yaml.hash [(.str "Version", .str "0.8")]]
      = RRes.err (ParseError.missingValue "Origin")
    ∧ ∀ c, Collection.try_from [Yaml.hash [(.str "Version", .str "0.8")]]
        ≠ RRes.ok c := by
  have h1 : Collection.try_from [Yaml.hash [(.str "Version", .str "0.8")]]
      = RRes.err (ParseError.missingValue "Origin") := by decide
  refine ⟨h1, fun c hc => ?_⟩
  rw [h1] at hc
  exact RRes.noConfusion hc

/-- C1, amended: a key-mapping header must carry `Origin` and
`MediaBaseUrl` — omitting `Origin` fails with `MissingValue("Origin")`,
omitting only `MediaBaseUrl` fails with `MissingValue("MediaBaseUrl")`;
when both are present but empty, parsing succeeds and the Collection stores
`None` (never empty strings) for both fields. -/
theorem c1_amended :
    Collection.try_from [Yaml.hash [(.str "Version", .str "0.8")]]
      = RRes.err (ParseError.missingValue "Origin")
    ∧ Collection.try_from
        [Yaml.hash [(.str "Version", .str "0.8"),
                    (.str "Origin", .str "flathub")]]
      = RRes.err (ParseError.missingValue "MediaBaseUrl")
    ∧ Collection.try_from
        [Yaml.hash [(.str "Version", .str "0.8"),
                    (.str "Origin", .str ""),
                    (.str "MediaBaseUrl", .str "")]]
      = RRes.ok { version := "0.8", origin := none, media_base_url := none,
                  components := [], architecture := none } := by
  decide

/-- C2: the two date encodings do not converge. `unix-timestamp:
1560988800` yields the instant 1560988800 (= 2019-06-20T00:00:00Z, as the
`deserialize_date` conjunct shows), but `date: "2019-06-20"` is read with
`as_i64()` (yaml.rs line 318), so the string is ignored and the release
keeps no date at all; the `InvalidValue(_, "date", "release")` path is
reachable only for integer values outside chrono's range. -/
theorem c2_release_date_evaluation :
    release_entry (.hash [(.str "version", .str "2.20.0"),
                          (.str "unix-timestamp", .int 1560988800)])
      = RRes.ok { version := "2.20.0", kind := none, date := some 1560988800 }
    ∧ deserialize_date "2019-06-20" = some 1560988800
    ∧ release_entry (.hash [(.str "version", .str "2.20.0"),
                            (.str "date", .str "2019-06-20")])
      = RRes.ok { version := "2.20.0", kind := none, date := none }
    ∧ release_entry (.hash [(.str "version", .str "2.20.0"),
                            (.str "date", .int 9223372036854775807)])
      = RRes.err
          (ParseError.invalidValue "9223372036854775807" "date" "release") := by
  decide

/-- C3: icon dimensions are lenient — absent, non-integer or out-of-`u32`
values become `None` without failing — but screenshot images are not: the
`width.unwrap()` / `height.unwrap()` calls (yaml.rs lines 274-275 and
297-298) panic as soon as a thumbnail or source-image lacks a valid
dimension, and the panic propagates out of the whole component
conversion. -/
theorem c3_dimension_evaluation :
    cached_icon_entry (.hash [(.str "name", .str "i.png"),
                              (.str "width", .str "abc"),
                              (.str "height", .int (-5))])
      = RRes.ok (Icon.cached "i.png" none none)
    ∧ cached_icon_entry (.hash [(.str "name", .str "i.png")])
      = RRes.ok (Icon.cached "i.png" none none)
    ∧ remote_icon_entry "https://m.org/"
        (.hash [(.str "url", .str "/i.png"),
                (.str "width", .int 4294967296)])
      = RRes.ok (Icon.remote "https://m.org//i.png" none none)
    ∧ local_icon_entry (.hash [(.str "name", .str "i.png"),
                               (.str "width", .int 32)])
      = RRes.ok (Icon.local "i.png" (some 32) none)
    ∧ thumbnail_entry "https://m.org/" (.hash [(.str "url", .str "/i.png")])
      = RRes.crash
    ∧ source_image_entry "https://m.org/"
        (.hash [(.str "url", .str "/i.png"),
                (.str "width", .str "abc"),
                (.str "height", .int 3)])
      = RRes.crash
    ∧ Component.try_from "o" "https://m.org/"
        (.hash [(.str "ID", .str "x.app"),
                (.str "Screenshots",
                 .arr [.hash [(.str "thumbnails",
                               .arr [.hash [(.str "url", .str "/i.png")]])]])])
      = RRes.crash := by
  decide

/-- C4: when the YAML tokenizer rejects the decoded bytes, both key-mapping
loader entry points panic — `YamlLoader::load_from_str(..).unwrap()`
(collection.rs lines 64 and 97) — instead of returning `MalformedTree` (or
any other `ParseError`). -/
theorem c4_loader_crashes_on_malformed (load : String → Except Unit (List Yaml))
    (contents : String) (hmalformed : load contents = Except.error ()) :
    from_yaml_path load contents = RRes.crash
    ∧ from_yaml_gzipped load (GzInput.payload contents) = RRes.crash
    ∧ ∀ e, from_yaml_path load contents ≠ RRes.err e := by
  have h1 : from_yaml_path load contents = RRes.crash := by
    simp [from_yaml_path, hmalformed]
  refine ⟨h1, ?_, fun e he => ?_⟩
  · simpa [from_yaml_gzipped] using h1
  · rw [h1] at he
    exact RRes.noConfusion he

/-- C4, witness: a concrete rejected input. -/
theorem c4_witness :
    from_yaml_path (fun _ => Except.error ()) "a: [unclosed" = RRes.crash
    ∧ from_yaml_gzipped (fun _ => Except.error ())
        (GzInput.payload "a: [unclosed") = RRes.crash :=
  ⟨(c4_loader_crashes_on_malformed (fun _ => Except.error ()) "a: [unclosed"
      rfl).1,
   (c4_loader_crashes_on_malformed (fun _ => Except.error ()) "a: [unclosed"
      rfl).2.1⟩

/-- C5: `find_by_id` returns exactly the components whose id equals the
query or the query with a literal `.desktop` appended, in collection order
(it is a sublist of the component sequence); on a collection containing
only `org.mozilla.Firefox` it returns that one component, and when
`org.mozilla.Firefox.desktop` is also present both are returned. -/
theorem c5_find_by_id :
    (∀ (c : Collection) (i : String) (comp : Component),
        comp ∈ c.find_by_id i ↔
          comp ∈ c.components ∧ (comp.id = i ∨ comp.id = i ++ ".desktop"))
    ∧ (∀ (c : Collection) (i : String),
        (c.find_by_id i).Sublist c.components)
    ∧ firefox_collection.find_by_id "org.mozilla.Firefox"
        = [firefox_component]
    ∧ firefox_collection_two.find_by_id "org.mozilla.Firefox"
        = [firefox_component, firefox_desktop_component] := by
  refine ⟨?_, ?_, by decide, by decide⟩
  · intro c i comp
    simp [Collection.find_by_id, List.mem_filter]
  · intro c i
    exact List.filter_sublist c.components

/-- C8, counterexample: a corrupt gzip stream given to `from_gzipped` does
not produce `DecompressionFailure`: the decoder is consumed inside
`Element::parse`, whose error the `?` converts to `MalformedTree`. -/
theorem c8_claim_counterexample :
    from_gzipped (fun _ => RRes.crash) GzInput.corrupt
      = RRes.err ParseError.malformedTree
    ∧ from_gzipped (fun _ => RRes.crash) GzInput.corrupt
      ≠ RRes.err ParseError.decompressionFailure :=
  ⟨rfl, fun h => ParseError.noConfusion (RRes.err.inj h)⟩

/-- C8, amended: only `from_yaml_gzipped` decompresses before parsing, and
there a corrupt stream yields `DecompressionFailure` (never
`MalformedTree`) no matter what the content parser would do; `from_gzipped`
and `from_gzipped_bytes` hand the compressed stream directly to the markup
parser, so a decompression failure surfaces through the markup parser's
error conversion as `MalformedTree`, not `DecompressionFailure`. -/
theorem c8_amended (load : String → Except Unit (List Yaml))
    (pm : String → RRes Collection) :
    from_yaml_gzipped load GzInput.corrupt
      = RRes.err ParseError.decompressionFailure
    ∧ from_yaml_gzipped load GzInput.corrupt
      ≠ RRes.err ParseError.malformedTree
    ∧ from_gzipped pm GzInput.corrupt = RRes.err ParseError.malformedTree
    ∧ from_gzipped_bytes pm GzInput.corrupt
      = RRes.err ParseError.malformedTree :=
  ⟨rfl, fun h => ParseError.noConfusion (RRes.err.inj h), rfl, rfl⟩

/-- C8, amended, witness: the amended statement at concrete arguments. -/
theorem c8_amended_witness :
    from_yaml_gzipped (fun _ => Except.ok []) GzInput.corrupt
      = RRes.err ParseError.decompressionFailure
    ∧ from_gzipped (fun _ => RRes.crash) GzInput.corrupt
      = RRes.err ParseError.malformedTree :=
  ⟨(c8_amended (fun _ => Except.ok []) (fun _ => RRes.crash)).1,
   (c8_amended (fun _ => Except.ok []) (fun _ => RRes.crash)).2.2.1⟩

/-- C10: `Collection::try_from` indexes document 0 unconditionally, so the
empty document sequence panics (`&e[0]` out of bounds) and no `ParseError`
is returned; via `from_yaml_path`, a file on which the YAML loader yields
zero documents (such as the empty file) reaches exactly this panic. -/
theorem c10_empty_stream_panics :
    Collection.try_from ([] : List Yaml) = RRes.crash
    ∧ (∀ e, Collection.try_from ([] : List Yaml) ≠ RRes.err e)
    ∧ ∀ (load : String → Except Unit (List Yaml)),
        load "" = Except.ok [] → from_yaml_path load "" = RRes.crash := by
  refine ⟨rfl, fun e he => RRes.noConfusion he, fun load hload => ?_⟩
  simp [from_yaml_path, hload]
  rfl

/-- C10, witness: the loader-level conjunct at a concrete loader output. -/
theorem c10_witness :
    from_yaml_path (fun _ => Except.ok []) "" = RRes.crash :=
  c10_empty_stream_panics.2.2 (fun _ => Except.ok []) rfl

/-- C6: every successfully produced remote icon, screenshot thumbnail and
screenshot source image carries the URL obtained by appending the entry's
relative `url` text to the base URL — plain string concatenation, double
slashes preserved, as the concrete conjunct shows. -/
theorem c6_url_concatenation :
    (∀ (base : String) (icon : Yaml) (ic : Icon),
        remote_icon_entry base icon = RRes.ok ic →
        ∃ path w h, (icon.index "url").as_str = some path ∧
          ic = Icon.remote (base ++ path) w h)
    ∧ (∀ (base : String) (t : Yaml) (img : Image),
        thumbnail_entry base t = RRes.ok img →
        ∃ path w h, (t.index "url").as_str = some path ∧
          img = { url := base ++ path, kind := ImageKind.thumbnail,
                  width := some w, height := some h })
    ∧ (∀ (base : String) (y : Yaml) (img : Image),
        source_image_entry base y = RRes.ok img →
        ∃ path w h, (y.index "url").as_str = some path ∧
          img = { url := base ++ path, kind := ImageKind.source,
                  width := some w, height := some h })
    ∧ remote_icon_entry "https://m.org/media/"
        (.hash [(.str "url", .str "/a//b.png"),
                (.str "width", .int 1), (.str "height", .int 2)])
      = RRes.ok (.remote "https://m.org/media//a//b.png" (some 1) (some 2)) := by
  refine ⟨?_, ?_, ?_, by decide⟩
  · intro base icon ic h
    simp only [remote_icon_entry] at h
    rw [RRes.bind_eq_ok] at h
    obtain ⟨path, hp, h⟩ := h
    rw [okOr_eq_ok] at hp
    rw [RRes.bind_eq_ok] at h
    obtain ⟨u, hu, h⟩ := h
    have hus := Url.parse_eq_ok hu
    subst hus
    simp only [RRes.pure_eq, RRes.ok.injEq] at h
    exact ⟨path, _, _, hp, h.symm⟩
  · intro base t img h
    simp only [thumbnail_entry] at h
    rw [RRes.bind_eq_ok] at h
    obtain ⟨path, hp, h⟩ := h
    rw [okOr_eq_ok] at hp
    rw [RRes.bind_eq_ok] at h
    obtain ⟨u, hu, h⟩ := h
    have hus := Url.parse_eq_ok hu
    subst hus
    rw [RRes.bind_eq_ok] at h
    obtain ⟨w, _, h⟩ := h
    rw [RRes.bind_eq_ok] at h
    obtain ⟨hgt, _, h⟩ := h
    simp only [RRes.pure_eq, RRes.ok.injEq] at h
    exact ⟨path, w, hgt, hp, h.symm⟩
  · intro base y img h
    simp only [source_image_entry] at h
    rw [RRes.bind_eq_ok] at h
    obtain ⟨path, hp, h⟩ := h
    rw [okOr_eq_ok] at hp
    rw [RRes.bind_eq_ok] at h
    obtain ⟨u, hu, h⟩ := h
    have hus := Url.parse_eq_ok hu
    subst hus
    rw [RRes.bind_eq_ok] at h
    obtain ⟨w, _, h⟩ := h
    rw [RRes.bind_eq_ok] at h
    obtain ⟨hgt, _, h⟩ := h
    simp only [RRes.pure_eq, RRes.ok.injEq] at h
    exact ⟨path, w, hgt, hp, h.symm⟩

/-- C6, witness: the remote-icon conjunct applied at a base ending in a
slash and a relative path starting with one. -/
theorem c6_witness :
    ∃ path w h,
      ((Yaml.hash [(.str "url", .str "/a//b.png"),
                   (.str "width", .int 1),
                   (.str "height", .int 2)]).index "url").as_str = some path
      ∧ Icon.remote "https://m.org/media//a//b.png" (some 1) (some 2)
        = Icon.remote ("https://m.org/media/" ++ path) w h :=
  c6_url_concatenation.1 "https://m.org/media/"
    (.hash [(.str "url", .str "/a//b.png"),
            (.str "width", .int 1), (.str "height", .int 2)])
    (.remote "https://m.org/media//a//b.png" (some 1) (some 2)) (by decide)

/-- C7: `Category::from_str` never fails — any token outside the closed set
is preserved as `Category::Unknown(token)` — and a component whose
`Categories` list contains the token `mycustomcat` is built successfully
with `Category::Unknown("mycustomcat")` among its categories. -/
theorem c7_unknown_category :
    (∀ s : String, s ∉ knownCategoryTokens →
        Category.from_str s = Except.ok (Category.unknown s))
    ∧ Component.try_from "o" "b"
        (.hash [(.str "ID", .str "x.app"),
                (.str "Categories", .arr [.str "mycustomcat"])])
      = RRes.ok { ComponentBuilder.default with
                    id := "x.app", origin := some "o",
                    categories := [Category.unknown "mycustomcat"] } := by
  constructor
  · intro s hs
    simp only [knownCategoryTokens, List.mem_cons, List.not_mem_nil, or_false,
      not_or] at hs
    obtain ⟨h1, h2, h3⟩ := hs
    simp [Category.from_str, h1, h2, h3]
  · decide

/-- C7, witness: the fallback at the token `mycustomcat`. -/
theorem c7_witness :
    Category.from_str "mycustomcat"
      = Except.ok (Category.unknown "mycustomcat") :=
  c7_unknown_category.1 "mycustomcat" (by decide)

/-- No arm of the per-component key loop touches the origin set before the
loop. -/
theorem process_kv_origin {base : String} {st : LoopState} {kv : Yaml × Yaml}
    {st₂ : LoopState} (h : process_kv base st kv = RRes.ok st₂) :
    st₂.comp.origin = st.comp.origin := by
  simp only [process_kv] at h
  rw [RRes.bind_eq_ok] at h
  obtain ⟨key, hkey, h⟩ := h
  split at h <;>
    first
      | (simp only [RRes.pure_eq, RRes.ok.injEq] at h; subst h; rfl)
      | (rw [RRes.bind_eq_ok] at h
         obtain ⟨a1, ha1, h⟩ := h
         first
           | (simp only [RRes.pure_eq, RRes.ok.injEq] at h; subst h; rfl)
           | (rw [RRes.bind_eq_ok] at h
              obtain ⟨a2, ha2, h⟩ := h
              simp only [RRes.pure_eq, RRes.ok.injEq] at h; subst h; rfl))

/-- A successful component conversion carries the propagated origin. -/
theorem try_from_origin {origin baseurl : String} {e : Yaml}
    {comp : Component}
    (h : Component.try_from origin baseurl e = RRes.ok comp) :
    comp.origin = some origin := by
  simp only [Component.try_from] at h
  split at h
  · split at h
    · simp only [RRes.pure_eq, RRes.bind_ok] at h
      rw [RRes.bind_eq_ok] at h
      obtain ⟨kvs, hkvs, h⟩ := h
      rw [RRes.bind_eq_ok] at h
      obtain ⟨idN, hid, h⟩ := h
      rw [RRes.bind_eq_ok] at h
      obtain ⟨app_id, happ, h⟩ := h
      rw [RRes.bind_eq_ok] at h
      obtain ⟨stf, hfold, h⟩ := h
      simp only [RRes.pure_eq, RRes.ok.injEq] at h
      subst h
      exact foldlM_preserve (P := fun st => st.comp.origin = some origin)
        (fun s a s₂ hs hP => (process_kv_origin hs).trans hP) hfold rfl
    · simp only [RRes.bind_err] at h
      exact RRes.noConfusion h
  · simp only [RRes.pure_eq, RRes.bind_ok] at h
    rw [RRes.bind_eq_ok] at h
    obtain ⟨kvs, hkvs, h⟩ := h
    rw [RRes.bind_eq_ok] at h
    obtain ⟨idN, hid, h⟩ := h
    rw [RRes.bind_eq_ok] at h
    obtain ⟨app_id, happ, h⟩ := h
    rw [RRes.bind_eq_ok] at h
    obtain ⟨stf, hfold, h⟩ := h
    simp only [RRes.pure_eq, RRes.ok.injEq] at h
    subst h
    exact foldlM_preserve (P := fun st => st.comp.origin = some origin)
      (fun s a s₂ hs hP => (process_kv_origin hs).trans hP) hfold rfl

/-- C9: every component of a successfully parsed key-mapping collection has
its origin field set to the header document's `Origin` string — the value
is read once from the header (yaml.rs lines 64-66) and passed into every
`Component` conversion, which stores it before processing any key. -/
theorem c9_origin_propagation :
    ∀ (header : Yaml) (rest : List Yaml) (coll : Collection),
      Collection.try_from (header :: rest) = RRes.ok coll →
      ∀ comp ∈ coll.components,
        comp.origin = (header.index "Origin").as_str := by
  intro header rest coll h comp hcomp
  simp only [Collection.try_from] at h
  rw [RRes.bind_eq_ok] at h
  obtain ⟨version, hv, h⟩ := h
  rw [RRes.bind_eq_ok] at h
  obtain ⟨origin, ho, h⟩ := h
  rw [RRes.bind_eq_ok] at h
  obtain ⟨media, hm, h⟩ := h
  rw [RRes.bind_eq_ok] at h
  obtain ⟨comps, hcs, h⟩ := h
  simp only [RRes.pure_eq, RRes.ok.injEq] at h
  subst h
  obtain ⟨doc, hdoc, hc⟩ := mapRR_ok_mem hcs comp hcomp
  rw [okOr_eq_ok] at ho
  rw [ho]
  exact try_from_origin hc

/-- C9, witness: the component of a one-component stream whose header
declares `Origin: chromodoris-main` carries that origin. -/
theorem c9_witness :
    sample_component.origin = (sample_header.index "Origin").as_str :=
  c9_origin_propagation sample_header [sample_component_doc] sample_collection
    (by decide) sample_component (by decide)

end Appstream
